import Mathlib

/-!
Shallow embedding of the Smarteefi Home Assistant integration
(custom_components/smarteefi): the UDP packet decoder, the poll
coordinator with its grouping/retry logic and interval regime, and the
per-device-class status decoders of the switch, fan, cover and light
entities.  Bytes are `Nat` values below 256; Python dicts with optional
keys become structures of `Option` fields; handlers that can raise
(`KeyError`, `NameError`) return `Option`.
-/

namespace Smarteefi

/-! ## Packet decoder (`SmarteefiUDPProtocol.datagram_received`) -/

/-- ASCII code of the colon separator byte. -/
def colonByte : Nat := 58

/-- `serial_bytes.split(b'\x00')[0]`: the bytes before the first NUL
(or the whole list when no NUL occurs). -/
def takeUntilNul : List Nat → List Nat
  | [] => []
  | b :: bs => if b = 0 then [] else b :: takeUntilNul bs

/-- `bytes.decode('ascii')` succeeds exactly when every byte is below 128. -/
def isAscii (bs : List Nat) : Bool := bs.all (· < 128)

/-- `int.from_bytes(_, byteorder='little', unsigned)` over four bytes. -/
def leU32 (b0 b1 b2 b3 : Nat) : Nat :=
  b0 + b1 * 256 + b2 * 65536 + b3 * 16777216

/-- Little-endian 32-bit read of four consecutive bytes at offset `i`. -/
def leU32At (data : List Nat) (i : Nat) : Nat :=
  leU32 (data.getD i 0) (data.getD (i + 1) 0) (data.getD (i + 2) 0) (data.getD (i + 3) 0)

/-- Result of a successful datagram parse. -/
structure Packet where
  serial : List Nat
  smap : Nat
  status : Nat
deriving Repr, DecidableEq

/-- `datagram_received`, decode part: length check, then serial parse
(ASCII decode of the bytes before the first NUL; a non-ASCII byte there
raises `UnicodeDecodeError`, caught by the surrounding `try`), then the
two separator checks, then the two little-endian fields.  `none` is the
"packet discarded, logged, no crash" path. -/
def datagramDecode (data : List Nat) : Option Packet :=
  if data.length < 26 then none
  else if ¬ isAscii (takeUntilNul (data.take 16)) then none
  else if data.getD 16 0 ≠ colonByte ∨ data.getD 21 0 ≠ colonByte then none
  else some { serial := takeUntilNul (data.take 16),
              smap := leU32At data 17, status := leU32At data 22 }

/-- A status-update event: the payload dict sent through the dispatcher.
Fields are `Option` because the coordinator omits `smap`/`status` on
failure (and `data.get('available', True)` defaults a missing key). -/
structure Payload where
  available : Option Bool
  smap : Option Nat
  status : Option Nat
deriving Repr, DecidableEq

/-- Events published by `datagram_received` for one datagram: one update
keyed by `serial:smap` on successful decode, none otherwise. -/
def datagramEvents (data : List Nat) : List ((List Nat × Nat) × Payload) :=
  match datagramDecode data with
  | none => []
  | some p => [((p.serial, p.smap), ⟨some true, some p.smap, some p.status⟩)]

/-! ## Devices and poll grouping (`SmarteefiDataUpdateCoordinator.async_sync_states`) -/

/-- One entry of the device list: the three colon-separated parts of the
`id` string `serial:ignored:smap` (`int(parts[2])` as a `Nat`). -/
structure Device where
  serial : String
  middle : String
  smap : Nat
deriving Repr, DecidableEq

/-- The routing key `serial:smap` used as the dispatcher signal suffix. -/
def Device.key (d : Device) : String × Nat := (d.serial, d.smap)

/-- Two devices share a poll group iff their `serial:ignored` parts agree. -/
def Device.samePfx (a b : Device) : Bool := a.serial = b.serial && a.middle = b.middle

/-- One step of building `combined_devices`: Python dict insertion order —
OR into an existing entry with the same prefix, else append a new entry. -/
def insertGroup (acc : List Device) (d : Device) : List Device :=
  if acc.any (fun g => g.samePfx d) then
    acc.map (fun g => if g.samePfx d then { g with smap := g.smap ||| d.smap } else g)
  else acc ++ [d]

/-- `combined_devices` / `new_devices`: fold the device list into one
combined entry per `serial:ignored` prefix, OR-combining the smap parts. -/
def groupDevices (devs : List Device) : List Device := devs.foldl insertGroup []

/-- Bitwise OR of the smap values of all devices in `devs` matching the
prefix of `g`. -/
def orOfGroup (g : Device) (devs : List Device) : Nat :=
  (devs.filter (fun d => g.samePfx d)).foldl (fun a d => a ||| d.smap) 0

/-- Python dict lookup: the smap of the first combined entry sharing the
prefix of `d`. -/
def findSmap : List Device → Device → Option Nat
  | [], _ => none
  | g :: gs, d => if g.samePfx d then some g.smap else findSmap gs d

/-- OR a further smap value into an optional accumulated value. -/
def combine : Option Nat → Nat → Option Nat
  | some a, v => some (a ||| v)
  | none, v => some v

/-! ## Command executor and per-group sync (`_sync_device_state`) -/

/-- Outcome of one `get-status` invocation: process failure (non-zero exit
or spawn error), success with stdout that is not a base-10 integer, or
success with an integer status word. -/
inductive ExecOutcome where
  | fail
  | okBad
  | ok (status : Nat)
deriving Repr, DecidableEq

/-- The retry loop head of `_sync_device_state`: attempt 0, and on command
failure one retry (attempt 1).  Returns the number of executor invocations
and the final outcome. -/
def retryOutcome (exec : Nat → ExecOutcome) : Nat × ExecOutcome :=
  match exec 0 with
  | .fail => (2, exec 1)
  | r => (1, r)

/-- The payload dispatched to one member device: on `ok`, available with
the member's own smap (`int(dev_parts[2])`) and the full status word; on
command failure or non-integer stdout, `{"available": False}` only
(`int(output)` raises before `payload["smap"]` is assigned). -/
def memberPayload (r : ExecOutcome) (dsmap : Nat) : Payload :=
  match r with
  | .ok st => ⟨some true, some dsmap, some st⟩
  | _ => ⟨some false, none, none⟩

/-- `_sync_device_state` for the (combined) device `gd` against the full
device list: run the command with one retry, then emit one payload per
member whose prefix matches, keyed by that member's own routing key. -/
def syncDeviceState (exec : Nat → ExecOutcome) (gd : Device) (devs : List Device) :
    Nat × List ((String × Nat) × Payload) :=
  let (n, r) := retryOutcome exec
  (n, (devs.filter (fun d => gd.samePfx d)).map (fun d => (d.key, memberPayload r d.smap)))

/-- The group loop of `async_sync_states` (no `entity_id`): sequentially
sync each combined group; `exec i` is the executor's behaviour for the
`i`-th group's command. -/
def syncStatesAux (exec : Nat → Nat → ExecOutcome) (devs : List Device) :
    Nat → List Device → Nat × List ((String × Nat) × Payload)
  | _, [] => (0, [])
  | i, g :: gs =>
      let r := syncDeviceState (exec i) g devs
      let rest := syncStatesAux exec devs (i + 1) gs
      (r.1 + rest.1, r.2 ++ rest.2)

/-- One full poll pass: group the device list, then sync every group in
order.  Returns the total number of executor invocations and the emitted
events in dispatch order. -/
def syncStates (exec : Nat → Nat → ExecOutcome) (devs : List Device) :
    Nat × List ((String × Nat) × Payload) :=
  syncStatesAux exec devs 0 (groupDevices devs)

/-! ## Coordinator interval regime (`_async_update` / `_setup_interval`) -/

/-- The two polling interval regimes: `INITIAL_SYNC_INTERVAL` (set by
`async_init`) and `SYNC_INTERVAL` (set on the first effective tick). -/
inductive Regime where
  | initial
  | regular
deriving Repr, DecidableEq

/-- Coordinator scheduling state: the `_is_initial_sync` flag and the
currently scheduled interval regime. -/
structure CoordState where
  isInitialSync : Bool
  regime : Regime
deriving Repr, DecidableEq

/-- State after `async_init`: `_is_initial_sync = True`, initial interval. -/
def initCoord : CoordState := ⟨true, .initial⟩

/-- `_async_update`: if the host is not running, return without syncing;
otherwise on the first pass flip `_is_initial_sync` and reschedule at the
regular interval, then run a sync pass.  Returns the new state and whether
a sync pass ran. -/
def coordTick (hassRunning : Bool) (s : CoordState) : CoordState × Bool :=
  if ¬ hassRunning then (s, false)
  else if s.isInitialSync then (⟨false, .regular⟩, true)
  else (s, true)

/-! ## Switch entity (`SmarteefiSwitch._handle_device_update`, const.py) -/

/-- Switch entity state.  `stateVal` models the Python `_state`, which the
handler may set to a `bool` or to the `int` value `smap & status`
(`False ~ 0`, `True ~ 1`; `is_on` is its truthiness). -/
structure SwitchState where
  stateVal : Nat
  avail : Bool
deriving Repr, DecidableEq

/-- `new_state = (status != 0) and (received_smap & status)` as the Python
value (`False ~ 0`; otherwise the int `received_smap & status`). -/
def pyNewState (recvSmap status : Nat) : Nat :=
  if status = 0 then 0 else recvSmap &&& status

/-- `SmarteefiSwitch._handle_device_update`: set availability from the
payload (default `True`), return early when unavailable, else decode when
both keys are present and the smap matches. -/
def switchHandleEvent (s : SwitchState) (own : Nat) (e : Payload) : SwitchState :=
  let s1 : SwitchState := { s with avail := e.available.getD true }
  if s1.avail = false then s1
  else
    match e.status, e.smap with
    | some status, some recv =>
        if recv = own then
          let ns := pyNewState recv status
          if s1.stateVal ≠ ns then { s1 with stateVal := ns } else s1
        else s1
    | _, _ => s1

/-- The switch decode rule observed through the handler: deliver a fresh
matching update to an off switch and read back `is_on`. -/
def decodeSwitch (smap status : Nat) : Bool :=
  (switchHandleEvent ⟨0, true⟩ smap ⟨some true, some smap, some status⟩).stateVal ≠ 0

/-! ## Fan entity (`SmarteefiFan._handle_device_update`) -/

/-- Fan entity state: `_state`, `_speed`, `_percentage` (initially `None`). -/
structure FanState where
  isOn : Bool
  speed : Nat
  percentage : Option Nat
deriving Repr, DecidableEq

/-- Body of the fan handler after the two dict reads: smap match check,
then the r3/r2&&r1/r2/r1 branch chain, then the `status == 0` on/off step. -/
def fanHandle (s : FanState) (own recv status : Nat) : FanState :=
  if recv ≠ own then s
  else
    let r1 := status &&& 0x10
    let r2 := status &&& 0x20
    let r3 := status &&& 0x40
    let s1 :=
      if r3 ≠ 0 then { s with percentage := some 100, speed := 4 }
      else if r2 ≠ 0 ∧ r1 ≠ 0 then { s with percentage := some 75, speed := 3 }
      else if r2 ≠ 0 then { s with percentage := some 50, speed := 2 }
      else if r1 ≠ 0 then { s with percentage := some 25, speed := 1 }
      else s
    if status = 0 then { s1 with isOn := false, speed := 0, percentage := some 0 }
    else { s1 with isOn := true }

/-- `SmarteefiFan._handle_device_update` at the payload level: it reads
`data["smap"]` and `data["status"]` unconditionally, so a payload missing
either key raises `KeyError` (`none`); it never touches availability. -/
def fanHandleEvent (s : FanState) (own : Nat) (e : Payload) : Option FanState :=
  match e.smap with
  | none => none
  | some recv =>
      match e.status with
      | none => none
      | some status => some (fanHandle s own recv status)

/-! ## Light entity (`SmarteefiLight._handle_device_update`) -/

/-- Light entity state.  `stateVal` models the Python `_state` truthiness
(the handler may store a `bool` or the int `smap & status`). -/
structure LightState where
  stateVal : Nat
  brightness : Nat
  rgb : Nat × Nat × Nat
deriving Repr, DecidableEq

/-- Body of the light handler after the two dict reads: smap match check;
RGB/brightness decode (`int((max(r,g,b)/255)*255)` in binary64 equals
`max r g b` exactly for every value in 0..255, checked exhaustively);
then the leftover switch-style `new_state` assignment, where the Python
comparison `self._state != new_state` has `True == 1` and `False == 0`. -/
def lightHandle (s : LightState) (own recv status : Nat) : LightState :=
  if recv ≠ own then s
  else
    let s1 :=
      if status ≠ 0 then
        let r := (status &&& 0xFF000000) >>> 24
        let g := (status &&& 0x00FF0000) >>> 16
        let b := (status &&& 0x0000FF00) >>> 8
        { s with stateVal := 1, brightness := max r (max g b), rgb := (r, g, b) }
      else { s with stateVal := 0, brightness := 0, rgb := (0, 0, 0) }
    let ns := pyNewState recv status
    if s1.stateVal ≠ ns then { s1 with stateVal := ns } else s1

/-- `SmarteefiLight._handle_device_update` at the payload level: like the
fan, it reads `data["smap"]`/`data["status"]` unconditionally (`KeyError`
on the coordinator's failure payload) and never touches availability. -/
def lightHandleEvent (s : LightState) (own : Nat) (e : Payload) : Option LightState :=
  match e.smap with
  | none => none
  | some recv =>
      match e.status with
      | none => none
      | some status => some (lightHandle s own recv status)

/-! ## Cover entity (`SmarteefiCover`) -/

/-- Cover entity state: `_current_position` and `_attr_available`. -/
structure CoverState where
  posn : Nat
  avail : Bool
deriving Repr, DecidableEq

/-- `SmarteefiCover._handle_device_update`: take availability from the
payload when the key is present; when `status` is present, mark available,
read `data["smap"]` (`KeyError` if absent), and on a smap match set the
position to 100 iff `status == smap`, else 0. -/
def coverHandleEvent (s : CoverState) (own : Nat) (e : Payload) : Option CoverState :=
  let s1 := match e.available with
    | some a => { s with avail := a }
    | none => s
  match e.status with
  | none => some s1
  | some status =>
      let s2 := { s1 with avail := true }
      match e.smap with
      | none => none
      | some recv =>
          if recv ≠ own then some s2
          else if status = own then some { s2 with posn := 100 }
          else some { s2 with posn := 0 }

/-- The direction/argument computation of `async_set_cover_position`:
`some (status, percentage)` when both CLI argument variables are assigned,
`none` when the trailing `else` branch runs and the later reference to
`status` raises `NameError` before any CLI command is executed. -/
def coverSetPosition (prev pos : Nat) : Option (String × String) :=
  if pos = 0 then some ("0", "0")
  else if pos = 100 then some ("1", "0")
  else if prev < pos then some ("1", toString (pos - prev))
  else if pos < prev then some ("0", toString (prev - pos))
  else none

/-! ## Concrete inputs used by witnesses and counterexamples -/

/-- A malformed-by-the-claim buffer: NUL at offset 1, a non-ASCII byte at
offset 2, valid separators, smap 1, status 2. -/
def bufNulFF : List Nat :=
  [65, 0, 255, 0, 0, 0, 0, 0, 0, 0, 0, 0, 0, 0, 0, 0,
   58, 1, 0, 0, 0, 58, 2, 0, 0, 0]

/-- A fully valid buffer: serial bytes "HI", smap 5, status 263. -/
def bufOk : List Nat :=
  [72, 73, 0, 0, 0, 0, 0, 0, 0, 0, 0, 0, 0, 0, 0, 0,
   58, 5, 0, 0, 0, 58, 7, 1, 0, 0]

/-- The three-member group of the spec's grouping example. -/
def devsABC : List Device := [⟨"A", "x", 1⟩, ⟨"A", "x", 2⟩, ⟨"A", "x", 4⟩]

/-- A two-member group used for the coordinator smap-field counterexample. -/
def devsAB : List Device := [⟨"A", "x", 1⟩, ⟨"A", "x", 2⟩]

/-- The coordinator failure payload `{"available": False}`. -/
def unavailablePayload : Payload := ⟨some false, none, none⟩

/-- Light constructor state: `_state = False`, `_brightness = 255`,
`_rgb_color = (255, 255, 255)`. -/
def lightInit : LightState := ⟨0, 255, (255, 255, 255)⟩

/-- Fan constructor state: `_state = False`, `_speed = 0`,
`_percentage = None`. -/
def fanInit : FanState := ⟨false, 0, none⟩

/-! # Theorems -/

theorem datagramEvents_none {data : List Nat} (h : datagramDecode data = none) :
    datagramEvents data = [] := by
  simp [datagramEvents, h]

theorem datagramEvents_some {data : List Nat} {p : Packet}
    (h : datagramDecode data = some p) :
    datagramEvents data = [((p.serial, p.smap), ⟨some true, some p.smap, some p.status⟩)] := by
  simp [datagramEvents, h]

/-- C5 counterexample: a 26-byte buffer with correct separators whose
first 16 bytes do NOT all decode as ASCII (byte 255 at offset 2, behind a
NUL at offset 1).  The claim demands failure with no event; the decoder
succeeds and publishes one update. -/
theorem claim5_counterexample :
    isAscii (bufNulFF.take 16) = false ∧
    26 ≤ bufNulFF.length ∧
    bufNulFF.getD 16 0 = colonByte ∧ bufNulFF.getD 21 0 = colonByte ∧
    datagramDecode bufNulFF = some ⟨[65], 1, 2⟩ ∧
    (datagramEvents bufNulFF).length = 1 := by
  decide

/-- C5 (amended): the packet decoder succeeds — returning the serial bytes
before the first NUL among bytes 0..15, the little-endian smap at 17..20
and the little-endian status at 22..25, and publishing exactly one update —
iff the buffer is at least 26 bytes long, the serial bytes (those before
the first NUL, not all 16) are ASCII, and both separator bytes are colons;
otherwise it fails and publishes no event. -/
theorem claim5_packet_decoder (data : List Nat) :
    (26 ≤ data.length ∧ isAscii (takeUntilNul (data.take 16)) = true ∧
        data.getD 16 0 = colonByte ∧ data.getD 21 0 = colonByte →
      datagramDecode data =
          some ⟨takeUntilNul (data.take 16), leU32At data 17, leU32At data 22⟩ ∧
        (datagramEvents data).length = 1) ∧
    (¬ (26 ≤ data.length ∧ isAscii (takeUntilNul (data.take 16)) = true ∧
        data.getD 16 0 = colonByte ∧ data.getD 21 0 = colonByte) →
      datagramDecode data = none ∧ datagramEvents data = []) := by
  have hkey : datagramDecode data =
      if 26 ≤ data.length ∧ isAscii (takeUntilNul (data.take 16)) = true ∧
          data.getD 16 0 = colonByte ∧ data.getD 21 0 = colonByte then
        some ⟨takeUntilNul (data.take 16), leU32At data 17, leU32At data 22⟩
      else none := by
    unfold datagramDecode
    by_cases hlen : data.length < 26
    · rw [if_pos hlen, if_neg]
      rintro ⟨h, -⟩
      omega
    · rw [if_neg hlen]
      by_cases ha : isAscii (takeUntilNul (data.take 16)) = true
      · rw [if_neg (not_not_intro ha)]
        by_cases h16 : data.getD 16 0 = colonByte
        · by_cases h21 : data.getD 21 0 = colonByte
          · rw [if_neg (by push_neg; exact ⟨h16, h21⟩), if_pos ⟨by omega, ha, h16, h21⟩]
          · rw [if_pos (Or.inr h21), if_neg (by rintro ⟨-, -, -, h⟩; exact h21 h)]
        · rw [if_pos (Or.inl h16), if_neg (by rintro ⟨-, -, h, -⟩; exact h16 h)]
      · rw [if_pos ha, if_neg (by rintro ⟨-, h, -⟩; exact ha h)]
  constructor
  · intro h
    have hd := hkey.trans (if_pos h)
    exact ⟨hd, by rw [datagramEvents_some hd]; rfl⟩
  · intro h
    have hd := hkey.trans (if_neg h)
    exact ⟨hd, datagramEvents_none hd⟩

/-- C5 witness: the amended theorem applied to a concrete valid buffer. -/
theorem claim5_witness :
    datagramDecode bufOk =
        some ⟨takeUntilNul (bufOk.take 16), leU32At bufOk 17, leU32At bufOk 22⟩ ∧
      (datagramEvents bufOk).length = 1 :=
  (claim5_packet_decoder bufOk).1 (by decide)

/-- C4 counterexample: `decode_switch(smap=0x02, status=0x05)` is off,
not on — `0x02 AND 0x05 = 0`, so there is no bit overlap. -/
theorem claim4_counterexample :
    decodeSwitch 2 5 = false ∧ (2 &&& 5 : Nat) = 0 := by decide

/-- C4 (amended): the switch decoder satisfies the reference vectors with
the second one corrected to off: `(0x02, 0x02)` on, `(0x02, 0x05)` off,
`(0x02, 0x01)` off, and `(smap, 0)` off for every smap. -/
theorem claim4_switch_vectors :
    decodeSwitch 2 2 = true ∧ decodeSwitch 2 5 = false ∧ decodeSwitch 2 1 = false ∧
    ∀ smap : Nat, decodeSwitch smap 0 = false := by
  refine ⟨by decide, by decide, by decide, fun smap => ?_⟩
  simp [decodeSwitch, switchHandleEvent, pyNewState]

/-- C3 counterexample: with own smap 1 and status 256 (nonzero), the light
handler leaves the entity off — the trailing switch-style assignment
overrides the `status != 0` rule — refuting "on iff status != 0". -/
theorem claim3_counterexample :
    (256 : Nat) ≠ 0 ∧ (lightHandle lightInit 1 1 256).stateVal = 0 := by decide

/-- C3 (amended): after a matching update the light is on iff
`status != 0` and `smap AND status != 0` (the trailing switch-style
assignment, with Python `True == 1`, reduces to this); when `status == 0`
brightness and RGB reset to zero; when `status != 0` the RGB channels are
bits 31..24, 23..16, 15..8 of status and brightness is their maximum. -/
theorem claim3_light_decode (s : LightState) (own status : Nat) :
    ((lightHandle s own own status).stateVal ≠ 0 ↔ status ≠ 0 ∧ own &&& status ≠ 0) ∧
    (status = 0 → (lightHandle s own own status).brightness = 0 ∧
      (lightHandle s own own status).rgb = (0, 0, 0)) ∧
    (status ≠ 0 →
      (lightHandle s own own status).brightness =
          max ((status &&& 0xFF000000) >>> 24)
            (max ((status &&& 0x00FF0000) >>> 16) ((status &&& 0x0000FF00) >>> 8)) ∧
      (lightHandle s own own status).rgb =
          ((status &&& 0xFF000000) >>> 24, (status &&& 0x00FF0000) >>> 16,
            (status &&& 0x0000FF00) >>> 8)) := by
  by_cases h0 : status = 0
  · subst h0
    simp [lightHandle, pyNewState]
  · by_cases hns : own &&& status = 1
    · simp [lightHandle, pyNewState, h0, hns]
    · have hns' : ¬ (1 = own &&& status) := fun h => hns h.symm
      simp [lightHandle, pyNewState, h0, hns, hns']

/-- C2 (code evaluated at the failing input): delivering the coordinator's
failure payload `{"available": False}` to each class's update handler —
the switch and cover handlers set availability to false, but the fan and
light handlers raise `KeyError` reading `data["smap"]` and never record
unavailability (they hold no availability state at all). -/
theorem claim2_unavailable_payload (sw : SwitchState) (cv : CoverState)
    (fs : FanState) (ls : LightState) (own : Nat) :
    (switchHandleEvent sw own unavailablePayload).avail = false ∧
    coverHandleEvent cv own unavailablePayload = some { cv with avail := false } ∧
    fanHandleEvent fs own unavailablePayload = none ∧
    lightHandleEvent ls own unavailablePayload = none := by
  exact ⟨rfl, rfl, rfl, rfl⟩

/-- C10: the set-position direction computation reaches the CLI call with
its `status`/`percentage` variables unassigned (a `NameError`, so no CLI
command is issued) exactly when the requested position equals the current
one and is strictly between 0 and 100; every other request in the 0..100
domain reaches the call with both variables assigned. -/
theorem claim10_set_position_name_error (prev pos : Nat) (hp : pos ≤ 100) :
    coverSetPosition prev pos = none ↔ 0 < pos ∧ pos < 100 ∧ pos = prev := by
  unfold coverSetPosition
  split_ifs with h1 h2 h3 h4 <;> simp_all <;> omega

/-- C10 witness: requesting position 50 while at position 50. -/
theorem claim10_witness :
    (50 : Nat) ≤ 100 ∧ (coverSetPosition 50 50 = none ↔ 0 < 50 ∧ 50 < 100 ∧ 50 = 50) :=
  ⟨by decide, claim10_set_position_name_error 50 50 (by decide)⟩

/-- C9: the fan decoder's branch priority — r3 (0x40) gives speed 4/100%,
else r1 and r2 together (0x30) give 3/75%, else r2 (0x20) gives 2/50%,
else r1 (0x10) gives 1/25% — and independently `status == 0` turns the fan
off with speed 0 and 0% while any nonzero status turns it on; in
particular the five reference vectors hold. -/
theorem claim9_fan_decode (s : FanState) (own status : Nat) :
    ((status &&& 0x40 ≠ 0 →
        (fanHandle s own own status).speed = 4 ∧
        (fanHandle s own own status).percentage = some 100) ∧
      (status &&& 0x40 = 0 ∧ status &&& 0x20 ≠ 0 ∧ status &&& 0x10 ≠ 0 →
        (fanHandle s own own status).speed = 3 ∧
        (fanHandle s own own status).percentage = some 75) ∧
      (status &&& 0x40 = 0 ∧ status &&& 0x20 ≠ 0 ∧ status &&& 0x10 = 0 →
        (fanHandle s own own status).speed = 2 ∧
        (fanHandle s own own status).percentage = some 50) ∧
      (status &&& 0x40 = 0 ∧ status &&& 0x20 = 0 ∧ status &&& 0x10 ≠ 0 →
        (fanHandle s own own status).speed = 1 ∧
        (fanHandle s own own status).percentage = some 25) ∧
      (status = 0 → fanHandle s own own status = ⟨false, 0, some 0⟩) ∧
      (status ≠ 0 → (fanHandle s own own status).isOn = true)) ∧
    (fanHandle fanInit 1 1 0x40 = ⟨true, 4, some 100⟩ ∧
      fanHandle fanInit 1 1 0x30 = ⟨true, 3, some 75⟩ ∧
      fanHandle fanInit 1 1 0x20 = ⟨true, 2, some 50⟩ ∧
      fanHandle fanInit 1 1 0x10 = ⟨true, 1, some 25⟩ ∧
      fanHandle fanInit 1 1 0 = ⟨false, 0, some 0⟩) := by
  refine ⟨⟨?_, ?_, ?_, ?_, ?_, ?_⟩, by decide⟩
  · intro h3
    have h0 : status ≠ 0 := by rintro rfl; exact h3 (by decide)
    simp [fanHandle, h3, h0]
  · rintro ⟨h3, h2, h1⟩
    have h0 : status ≠ 0 := by rintro rfl; exact h2 (by decide)
    simp [fanHandle, h3, h2, h1, h0]
  · rintro ⟨h3, h2, h1⟩
    have h0 : status ≠ 0 := by rintro rfl; exact h2 (by decide)
    simp [fanHandle, h3, h2, h1, h0]
  · rintro ⟨h3, h2, h1⟩
    have h0 : status ≠ 0 := by rintro rfl; exact h1 (by decide)
    simp [fanHandle, h3, h2, h1, h0]
  · rintro rfl
    simp [fanHandle]
  · intro h0
    simp [fanHandle, h0]

theorem samePfx_iff {a b : Device} :
    a.samePfx b = true ↔ a.serial = b.serial ∧ a.middle = b.middle := by
  simp [Device.samePfx]

theorem samePfx_refl (a : Device) : a.samePfx a = true :=
  samePfx_iff.2 ⟨rfl, rfl⟩

theorem samePfx_comm (a b : Device) : a.samePfx b = b.samePfx a := by
  by_cases h : a.samePfx b = true
  · obtain ⟨h1, h2⟩ := samePfx_iff.1 h
    rw [h, (samePfx_iff.2 ⟨h1.symm, h2.symm⟩)]
  · have h' : ¬ b.samePfx a = true := fun hb => by
      obtain ⟨h1, h2⟩ := samePfx_iff.1 hb
      exact h (samePfx_iff.2 ⟨h1.symm, h2.symm⟩)
    rw [Bool.eq_false_iff.2 h, Bool.eq_false_iff.2 h']

theorem samePfx_trans {a b c : Device} (h1 : a.samePfx b = true)
    (h2 : b.samePfx c = true) : a.samePfx c = true := by
  obtain ⟨x1, x2⟩ := samePfx_iff.1 h1
  obtain ⟨y1, y2⟩ := samePfx_iff.1 h2
  exact samePfx_iff.2 ⟨x1.trans y1, x2.trans y2⟩

theorem samePfx_smap_update (a d : Device) (v : Nat) :
    ({ a with smap := v } : Device).samePfx d = a.samePfx d := rfl

theorem findSmap_map_or {acc : List Device} {d0 d : Device}
    (h : d0.samePfx d = true)
    (hp : acc.any (fun g => g.samePfx d0) = true) :
    findSmap
        (acc.map (fun g =>
          if g.samePfx d0 then { g with smap := g.smap ||| d0.smap } else g)) d =
      combine (findSmap acc d) d0.smap := by
  induction acc with
  | nil => simp at hp
  | cons a acc ih =>
      simp only [List.map_cons]
      by_cases ha : a.samePfx d0 = true
      · have had : a.samePfx d = true := samePfx_trans ha h
        rw [if_pos ha]
        simp only [findSmap, samePfx_smap_update, had, if_pos]
        rfl
      · have had : a.samePfx d = false := by
          rw [← Bool.not_eq_true]
          intro hcon
          have hd0d : d.samePfx d0 = true := samePfx_comm d0 d ▸ h
          exact ha (samePfx_trans hcon hd0d)
        have hp' : acc.any (fun g => g.samePfx d0) = true := by
          simpa [ha] using hp
        rw [if_neg ha]
        simp only [findSmap, had, Bool.false_eq_true, if_false]
        exact ih hp'

theorem findSmap_map_skip {acc : List Device} {d0 d : Device}
    (h : d0.samePfx d = false) :
    findSmap
        (acc.map (fun g =>
          if g.samePfx d0 then { g with smap := g.smap ||| d0.smap } else g)) d =
      findSmap acc d := by
  induction acc with
  | nil => rfl
  | cons a acc ih =>
      simp only [List.map_cons]
      by_cases had : a.samePfx d = true
      · have ha : a.samePfx d0 = false := by
          rw [← Bool.not_eq_true]
          intro hcon
          have : d0.samePfx d = true :=
            samePfx_trans (samePfx_comm a d0 ▸ hcon) had
          simp [this] at h
        rw [if_neg (by simp [ha])]
        simp only [findSmap, had, if_pos]
      · have had' : a.samePfx d = false := by simpa using had
        by_cases ha : a.samePfx d0 = true
        · rw [if_pos ha]
          simp only [findSmap, samePfx_smap_update, had', Bool.false_eq_true, if_false]
          exact ih
        · rw [if_neg ha]
          simp only [findSmap, had', Bool.false_eq_true, if_false]
          exact ih

theorem findSmap_append {acc : List Device} {d0 d : Device}
    (hp : acc.any (fun g => g.samePfx d0) = false) :
    findSmap (acc ++ [d0]) d =
      if d0.samePfx d = true then combine (findSmap acc d) d0.smap
      else findSmap acc d := by
  induction acc with
  | nil =>
      simp only [List.nil_append, findSmap]
      by_cases h : d0.samePfx d = true
      · rw [if_pos h, if_pos h]; rfl
      · have h' : d0.samePfx d = false := by simpa using h
        rw [if_neg h]
        simp [findSmap, h']
  | cons a acc ih =>
      have ha0 : a.samePfx d0 = false := by
        by_contra hcon
        simp only [Bool.not_eq_false] at hcon
        simp [hcon] at hp
      have hp' : acc.any (fun g => g.samePfx d0) = false := by
        simpa [ha0] using hp
      simp only [List.cons_append]
      by_cases had : a.samePfx d = true
      · have h : d0.samePfx d = false := by
          by_contra hcon
          simp only [Bool.not_eq_false] at hcon
          have : a.samePfx d0 = true :=
            samePfx_trans had (samePfx_comm d0 d ▸ hcon)
          simp [this] at ha0
        rw [if_neg (by simp [h])]
        simp only [findSmap, had, if_pos]
      · have had' : a.samePfx d = false := by simpa using had
        simp only [findSmap, had', Bool.false_eq_true, if_false]
        exact ih hp'

theorem findSmap_insertGroup (acc : List Device) (d0 d : Device) :
    findSmap (insertGroup acc d0) d =
      if d0.samePfx d = true then combine (findSmap acc d) d0.smap
      else findSmap acc d := by
  unfold insertGroup
  by_cases hp : acc.any (fun g => g.samePfx d0) = true
  · rw [if_pos hp]
    by_cases h : d0.samePfx d = true
    · rw [if_pos h, findSmap_map_or h hp]
    · rw [if_neg h, findSmap_map_skip (Bool.not_eq_true _ ▸ h)]
  · rw [if_neg hp, findSmap_append (Bool.not_eq_true _ ▸ hp)]

theorem findSmap_foldl (devs : List Device) : ∀ (acc : List Device) (d : Device),
    findSmap (devs.foldl insertGroup acc) d =
      (devs.filter (fun x => x.samePfx d)).foldl
        (fun o x => combine o x.smap) (findSmap acc d) := by
  induction devs with
  | nil => intro acc d; rfl
  | cons x xs ih =>
      intro acc d
      simp only [List.foldl_cons, List.filter_cons]
      rw [ih]
      by_cases hx : x.samePfx d = true
      · rw [findSmap_insertGroup, if_pos hx, if_pos hx]
        rfl
      · rw [findSmap_insertGroup, if_neg hx, if_neg (by simpa using hx)]

theorem foldl_combine_smap (l : List Device) : ∀ a : Nat,
    l.foldl (fun o x => combine o x.smap) (some a) =
      some (l.foldl (fun a x => a ||| x.smap) a) := by
  induction l with
  | nil => intro a; rfl
  | cons x l ih => intro a; simpa using ih (a ||| x.smap)

theorem samePfx_ite_update (d0 a b : Device) :
    ((if a.samePfx d0 then { a with smap := a.smap ||| d0.smap } else a).samePfx
      (if b.samePfx d0 then { b with smap := b.smap ||| d0.smap } else b)) =
      a.samePfx b := by
  by_cases ha : a.samePfx d0 = true <;> by_cases hb : b.samePfx d0 = true <;>
    simp [ha, hb] <;> rfl

theorem pairwise_insertGroup {acc : List Device} (d0 : Device)
    (h : acc.Pairwise (fun a b => a.samePfx b = false)) :
    (insertGroup acc d0).Pairwise (fun a b => a.samePfx b = false) := by
  unfold insertGroup
  by_cases hp : acc.any (fun g => g.samePfx d0) = true
  · rw [if_pos hp, List.pairwise_map]
    refine h.imp_of_mem ?_
    intro a b _ _ hab
    rw [samePfx_ite_update, hab]
  · rw [if_neg hp, List.pairwise_append]
    refine ⟨h, List.pairwise_singleton _ _, ?_⟩
    intro a ha b hb
    rw [List.mem_singleton] at hb
    subst hb
    simp only [List.any_eq_true, not_exists] at hp
    push_neg at hp
    simpa using hp a ha

theorem pairwise_groupDevices (devs : List Device) :
    (groupDevices devs).Pairwise (fun a b => a.samePfx b = false) := by
  suffices h : ∀ acc : List Device,
      acc.Pairwise (fun a b => a.samePfx b = false) →
      (devs.foldl insertGroup acc).Pairwise (fun a b => a.samePfx b = false) from
    h [] (List.Pairwise.nil)
  induction devs with
  | nil => intro acc hacc; exact hacc
  | cons x xs ih =>
      intro acc hacc
      exact ih _ (pairwise_insertGroup x hacc)

theorem findSmap_of_mem {l : List Device} {g : Device}
    (hp : l.Pairwise (fun a b => a.samePfx b = false)) (hg : g ∈ l) :
    findSmap l g = some g.smap := by
  induction l with
  | nil => cases hg
  | cons a l ih =>
      obtain ⟨h1, h2⟩ := List.pairwise_cons.1 hp
      rcases List.mem_cons.1 hg with rfl | hg'
      · simp [findSmap, samePfx_refl]
      · have ha : a.samePfx g = false := h1 g hg'
        simp only [findSmap, ha, Bool.false_eq_true, if_false]
        exact ih h2 hg'

theorem foldl_combine_ne_none {l : List Device} (h : l ≠ []) :
    l.foldl (fun o x => combine o x.smap) none ≠ none := by
  cases l with
  | nil => cases h rfl
  | cons x l =>
      simp only [List.foldl_cons]
      rw [show combine none x.smap = some x.smap from rfl, foldl_combine_smap]
      exact Option.some_ne_none _

theorem findSmap_isSome_mem {l : List Device} {d : Device}
    (h : findSmap l d ≠ none) : ∃ g ∈ l, g.samePfx d = true := by
  induction l with
  | nil => exact absurd rfl h
  | cons a l ih =>
      by_cases ha : a.samePfx d = true
      · exact ⟨a, List.mem_cons_self a l, ha⟩
      · simp only [findSmap, ha, Bool.false_eq_true, if_false] at h
        · obtain ⟨g, hg, hgd⟩ := ih (by simpa using h)
          exact ⟨g, List.mem_cons_of_mem a hg, hgd⟩

theorem retryOutcome_ok {exec : Nat → ExecOutcome} (h : exec 0 ≠ .fail) :
    retryOutcome exec = (1, exec 0) := by
  cases he : exec 0 with
  | fail => exact absurd he h
  | okBad => simp [retryOutcome, he]
  | ok st => simp [retryOutcome, he]

theorem syncStatesAux_count {exec : Nat → Nat → ExecOutcome}
    (devs : List Device) (h : ∀ i, exec i 0 ≠ .fail) :
    ∀ (gs : List Device) (i : Nat), (syncStatesAux exec devs i gs).1 = gs.length := by
  intro gs
  induction gs with
  | nil => intro i; rfl
  | cons g gs ih =>
      intro i
      simp only [syncStatesAux, syncDeviceState, retryOutcome_ok (h i), ih (i + 1),
        List.length_cons]
      omega

/-- C6: poll grouping — every combined group's smap is the bitwise OR of
the smaps of all devices sharing its `serial:ignored` prefix, every device
falls in some group, groups have pairwise distinct prefixes (a partition),
the `A:x:1 / A:x:2 / A:x:4` example combines to one group with smap 7, and
when no first attempt fails a sync pass invokes the executor exactly once
per group. -/
theorem claim6_grouping (devs : List Device) (exec : Nat → Nat → ExecOutcome) :
    (∀ g ∈ groupDevices devs, g.smap = orOfGroup g devs) ∧
    (∀ d ∈ devs, ∃ g ∈ groupDevices devs, g.samePfx d = true) ∧
    (groupDevices devs).Pairwise (fun a b => a.samePfx b = false) ∧
    groupDevices devsABC = [⟨"A", "x", 7⟩] ∧
    ((∀ i, exec i 0 ≠ ExecOutcome.fail) →
      (syncStates exec devs).1 = (groupDevices devs).length) := by
  refine ⟨?_, ?_, pairwise_groupDevices devs, by decide,
    fun h => syncStatesAux_count devs h (groupDevices devs) 0⟩
  · intro g hg
    have h1 := findSmap_of_mem (pairwise_groupDevices devs) hg
    have h2 := findSmap_foldl devs [] g
    rw [show findSmap [] g = none from rfl] at h2
    have h3 : devs.filter (fun x => x.samePfx g) = devs.filter (fun d => g.samePfx d) :=
      List.filter_congr (fun x _ => samePfx_comm x g)
    unfold groupDevices at h1
    rw [h1] at h2
    unfold orOfGroup
    rw [← h3]
    cases hl : devs.filter (fun x => x.samePfx g) with
    | nil => rw [hl] at h2; simp at h2
    | cons v rest =>
        rw [hl] at h2
        simp only [List.foldl_cons] at h2 ⊢
        rw [show combine none v.smap = some v.smap from rfl,
          foldl_combine_smap] at h2
        rw [Nat.zero_or]
        exact Option.some.inj h2
  · intro d hd
    apply findSmap_isSome_mem
    have h2 := findSmap_foldl devs [] d
    rw [show findSmap [] d = none from rfl] at h2
    unfold groupDevices
    rw [h2]
    have hmem : d ∈ devs.filter (fun x => x.samePfx d) :=
      List.mem_filter.2 ⟨hd, samePfx_refl d⟩
    exact foldl_combine_ne_none (List.ne_nil_of_mem hmem)

/-- C7: when the `get-status` command fails twice, the coordinator has
invoked the executor exactly twice (its behaviour depends on no attempt
beyond the first two), and every member of the group — and only those —
receives the identical `{"available": False}` payload keyed by its own
routing key. -/
theorem claim7_retry_unavailable (exec : Nat → ExecOutcome) (gd : Device)
    (devs : List Device) (h0 : exec 0 = .fail) (h1 : exec 1 = .fail) :
    (syncDeviceState exec gd devs).1 = 2 ∧
    (syncDeviceState exec gd devs).2 =
      (devs.filter (fun d => gd.samePfx d)).map (fun d => (d.key, unavailablePayload)) ∧
    (∀ e2 : Nat → ExecOutcome, e2 0 = exec 0 → e2 1 = exec 1 →
      syncDeviceState e2 gd devs = syncDeviceState exec gd devs) := by
  have hr : retryOutcome exec = (2, .fail) := by simp [retryOutcome, h0, h1]
  refine ⟨by simp [syncDeviceState, hr], ?_, ?_⟩
  · simp [syncDeviceState, hr, memberPayload, unavailablePayload]
  · intro e2 he0 he1
    have hr2 : retryOutcome e2 = (2, .fail) := by
      simp [retryOutcome, he0.trans h0, he1.trans h1]
    simp [syncDeviceState, hr, hr2]

/-- C7 witness: a twice-failing executor over the two-member group. -/
theorem claim7_witness :
    (syncDeviceState (fun _ => ExecOutcome.fail) ⟨"A", "x", 3⟩ devsAB).1 = 2 ∧
    (syncDeviceState (fun _ => ExecOutcome.fail) ⟨"A", "x", 3⟩ devsAB).2 =
      (devsAB.filter (fun d => (⟨"A", "x", 3⟩ : Device).samePfx d)).map
        (fun d => (d.key, unavailablePayload)) ∧
    (∀ e2 : Nat → ExecOutcome,
      e2 0 = (fun _ => ExecOutcome.fail) 0 → e2 1 = (fun _ => ExecOutcome.fail) 1 →
      syncDeviceState e2 ⟨"A", "x", 3⟩ devsAB =
        syncDeviceState (fun _ => ExecOutcome.fail) ⟨"A", "x", 3⟩ devsAB) :=
  claim7_retry_unavailable (fun _ => ExecOutcome.fail) ⟨"A", "x", 3⟩ devsAB rfl rfl

/-- C1 counterexample: polling the group `A:x` (members with smap 1 and 2,
combined bitmask 3) with a succeeding executor emits payloads whose smap
fields are 1 and 2 — each member's own smap — not the combined 3 the claim
requires. -/
theorem claim1_counterexample :
    (syncStates (fun _ _ => ExecOutcome.ok 5) devsAB).2 =
      [(("A", 1), (⟨some true, some 1, some 5⟩ : Payload)),
        (("A", 2), (⟨some true, some 2, some 5⟩ : Payload))] ∧
    groupDevices devsAB = [⟨"A", "x", 3⟩] ∧
    (some 1 : Option Nat) ≠ some 3 := by decide

/-- C1 (amended): on a successful poll of a group, the coordinator emits
one StatusUpdate per member device — keyed by that device's own
`serial:smap` routing key, with the smap field equal to the device's OWN
smap value and the status field the full combined status word — and under
a duplicate-free device list each routing key is emitted exactly once. -/
theorem claim1_sync_updates (exec : Nat → ExecOutcome) (gd : Device)
    (devs : List Device) (st : Nat) (h : exec 0 = .ok st) :
    (syncDeviceState exec gd devs).2 =
      (devs.filter (fun d => gd.samePfx d)).map
        (fun d => (d.key, (⟨some true, some d.smap, some st⟩ : Payload))) ∧
    (devs.Nodup → ((syncDeviceState exec gd devs).2.map Prod.fst).Nodup) := by
  have hr : retryOutcome exec = (1, .ok st) := by simp [retryOutcome, h]
  constructor
  · simp [syncDeviceState, hr, memberPayload]
  · intro hnd
    have hf : (devs.filter (fun d => gd.samePfx d)).Nodup := hnd.filter _
    have hmap : (syncDeviceState exec gd devs).2.map Prod.fst =
        (devs.filter (fun d => gd.samePfx d)).map Device.key := by
      simp [syncDeviceState, hr, memberPayload, List.map_map, Function.comp]
    rw [hmap]
    refine hf.map_on ?_
    intro x hx y hy hxy
    obtain ⟨hx1, hx2⟩ := samePfx_iff.1 (List.of_mem_filter hx)
    obtain ⟨hy1, hy2⟩ := samePfx_iff.1 (List.of_mem_filter hy)
    cases x
    cases y
    simp only [Device.key, Prod.mk.injEq] at hxy
    obtain ⟨h1, h2⟩ := hxy
    simp only at hx2 hy2
    have hm := hx2.symm.trans hy2
    simp [h1, h2, hm]

/-- C1 witness: the amended theorem at the concrete two-member group. -/
theorem claim1_witness :
    (syncDeviceState (fun _ => ExecOutcome.ok 5) ⟨"A", "x", 3⟩ devsAB).2 =
      (devsAB.filter (fun d => (⟨"A", "x", 3⟩ : Device).samePfx d)).map
        (fun d => (d.key, (⟨some true, some d.smap, some 5⟩ : Payload))) ∧
    (devsAB.Nodup →
      ((syncDeviceState (fun _ => ExecOutcome.ok 5) ⟨"A", "x", 3⟩ devsAB).2.map
        Prod.fst).Nodup) :=
  claim1_sync_updates (fun _ => ExecOutcome.ok 5) ⟨"A", "x", 3⟩ devsAB 5 rfl

/-- C8: a tick with the host not yet running is a no-op (no sync pass, no
state or interval change); the first tick with the host running moves the
coordinator from the initial to the regular regime (and runs a sync); and
once `_is_initial_sync` is cleared no tick ever changes the state again, so
the transition happens exactly once and never reverts. -/
theorem claim8_interval_regime :
    (∀ s : CoordState, coordTick false s = (s, false)) ∧
    coordTick true initCoord = (⟨false, Regime.regular⟩, true) ∧
    (∀ (b : Bool) (s : CoordState), s.isInitialSync = false → (coordTick b s).1 = s) := by
  refine ⟨fun s => rfl, rfl, fun b s h => ?_⟩
  cases b
  · rfl
  · simp [coordTick, h]

end Smarteefi
